import Mathlib

set_option maxRecDepth 100000

/-!
Shallow embedding of `extract_deliverables.py` (SRM-Table repository).

The script scans LaTeX text with pyparsing for the command patterns

  `\keyproject` `[..]` `{..}` `{..}`   (ProjectParser)
  `\deliverable` `[..]` `{..}` `{..}`  (DeliverableParser)
  `\keytask` `[..]` `{..}` `{..}`      (KeyTaskParser)
  `\prereq` `{..}`                     (PreReqParser)

built from `pp.nestedExpr` bracket groups, and assembles the matches into a
list of projects with nested deliverables, key tasks and prerequisite
references.  The embedding below reproduces, over `List Char`:

* `pp.nestedExpr(opener, closer)`: a balanced bracket group whose items are
  quoted strings (the default `ignoreExpr=quotedString`, tried first),
  nested groups, or maximal runs of characters that are neither the
  opener, the closer nor pyparsing default whitespace (space, newline,
  tab) and at which no quoted string starts — the content expression is
  `Combine(OneOrMore(~ignoreExpr + CharsNotIn(...)))` (`parseItems`,
  `parseGroup`, `contentTake`, `contentDrop`).  A complete single- or
  double-quoted string (pyparsing's `quotedString` regex, with `""` /
  `''` doubling and backslash escapes) is one token kept verbatim,
  quotes and internal whitespace included (`quotedStringMatch`).
* `scanString`: a single left-to-right pass that tries the alternatives at
  each position, advancing one character on failure and past the matched
  span on success (`scanAux`).  pyparsing's `Or` selects the longest match;
  as no command literal is a prefix of another, at most one alternative can
  match at a position and trying them in order is equivalent.  `scanString`
  also expands tabs first; tabs matter only as whitespace here, which the
  embedding treats directly.
* the parse actions, which mutate the shared `projects` list; the embedding
  threads that list explicitly and models the `IndexError` / `TypeError`
  exceptions a parse action can raise (which abort the whole scan) as an
  `Except` error result.
-/

namespace SRM

abbrev Chars := List Char

/-- pyparsing `ParserElement.DEFAULT_WHITE_CHARS`, which is `" \n\t"` in
the pyparsing 2.x line this Python 2 script runs against (pyparsing 3
adds a carriage return; no input considered here contains one). -/
def isWs (ch : Char) : Bool :=
  ch == ' ' || ch == '\n' || ch == '\t'

mutual

/-- One item of a pyparsing `nestedExpr` result: a plain token string or a
nested bracket group (`ParseResults` converts to nested lists). -/
inductive Tok where
  | str : String → Tok
  | grp : TokList → Tok

/-- The item list of a bracket group. -/
inductive TokList where
  | nil : TokList
  | cons : Tok → TokList → TokList

end

def TokList.length : TokList → Nat
  | .nil => 0
  | .cons _ ts => ts.length + 1

/-- Indexing `content[i]`, as `ParseResults.__getitem__` (fails out of range). -/
def TokList.get? : TokList → Nat → Option Tok
  | .nil, _ => none
  | .cons t _, 0 => some t
  | .cons _ ts, n + 1 => ts.get? n

/-- Python truth value of the item list (`if not content`). -/
def TokList.isEmpty : TokList → Bool
  | .nil => true
  | .cons _ _ => false

def TokList.ofList : List Tok → TokList
  | [] => .nil
  | t :: ts => .cons t (TokList.ofList ts)

mutual

/-- `match_to_string` of the script: a string is returned as is, a match
list is flattened by joining the rendering of its items with single
spaces. -/
def match_to_string : Tok → String
  | .str s => s
  | .grp ms => String.intercalate " " (mtsList ms)

def mtsList : TokList → List String
  | .nil => []
  | .cons t ts => match_to_string t :: mtsList ts

end

/-- A character that can be part of a plain content token of
`nestedExpr(opener, closer)`: pyparsing uses
`CharsNotIn(opener + closer + DEFAULT_WHITE_CHARS)`. -/
def tokChar (o c ch : Char) : Bool :=
  !isWs ch && ch != o && ch != c

/-- The double-quote character. -/
def dquote : Char := Char.ofNat 34

/-- The single-quote character. -/
def squote : Char := Char.ofNat 39

/-- A hexadecimal digit (`[0-9a-fA-F]`). -/
def isHexDigit (ch : Char) : Bool :=
  ch.isDigit || (97 ≤ ch.toNat && ch.toNat ≤ 102) || (65 ≤ ch.toNat && ch.toNat ≤ 70)

/-- The body-and-closer of pyparsing's `quotedString` for quote character
`q`, after the opening quote: the regex
`q(?:[^q\n\r\\]|(?:qq)|(?:\\(?:[^x]|x[0-9a-fA-F]+)))*` followed by the
literal closing `q`.  The greedy star with backtracking reduces to: a
doubled `qq` is consumed as an escaped pair when the remainder still
closes, and otherwise the first `q` closes the string; a backslash
consumes the next character (or `x` plus a maximal hex-digit run); a bare
newline or carriage return, or running out of input, fails the whole
match.  Returns the text after the closing quote.  Every recursive call
consumes at least one character, so `length + 1` fuel is never
exhausted. -/
def qsTail (q : Char) : Nat → Chars → Option Chars
  | 0, _ => none
  | _ + 1, [] => none
  | n + 1, ch :: s =>
    if ch = q then
      match s with
      | [] => some []
      | q2 :: s2 =>
        if q2 = q then
          match qsTail q n s2 with
          | some r => some r
          | none => some s
        else some s
    else if ch == '\n' || ch == '\r' then none
    else if ch = '\\' then
      match s with
      | [] => none
      | e :: s2 =>
        if e = 'x' then
          if (s2.takeWhile isHexDigit).isEmpty then none
          else qsTail q n (s2.dropWhile isHexDigit)
        else qsTail q n s2
    else qsTail q n s

/-- pyparsing `quotedString` (the default `ignoreExpr` of `nestedExpr`):
a complete string enclosed in double or single quotes starting at the
current position.  Returns the text after the match; the matched span
itself (quotes included) is the token, since `quotedString` carries no
unquoting action here. -/
def quotedStringMatch : Chars → Option Chars
  | [] => none
  | ch :: s =>
    if ch = dquote then qsTail dquote (s.length + 1) s
    else if ch = squote then qsTail squote (s.length + 1) s
    else none

/-- The span of a plain content token starting here:
`Combine(OneOrMore(~ignoreExpr + CharsNotIn(opener+closer+whites,
exact=1)))` consumes one character at a time, stopping at a delimiter, at
whitespace, or at a position where a quoted string starts. -/
def contentTake (o c : Char) : Chars → Chars
  | [] => []
  | ch :: s =>
    if tokChar o c ch && (quotedStringMatch (ch :: s)).isNone then
      ch :: contentTake o c s
    else []

/-- The text after the plain content token starting here (same stopping
rule as `contentTake`). -/
def contentDrop (o c : Char) : Chars → Chars
  | [] => []
  | ch :: s =>
    if tokChar o c ch && (quotedStringMatch (ch :: s)).isNone then
      contentDrop o c s
    else ch :: s

/-- Item list of a `nestedExpr` group: the opener has been consumed and the
items run up to the matching closer.  Per pyparsing's
`ZeroOrMore(ignoreExpr | ret | content) + Suppress(closer)`: whitespace
between items is skipped, a quoted string is one verbatim token, `o`
starts a nested group, and any other non-closer character starts a
maximal plain token.  Returns the items and the text after the closing
delimiter; `none` when no matching closer exists before the end of the
input (pyparsing raises a `ParseException`, i.e. the surrounding match
attempt fails).  The fuel only bounds the recursion; every recursive call
consumes at least one character, so `length + 1` fuel is never
exhausted. -/
def parseItems (o c : Char) : Nat → Chars → Option (TokList × Chars)
  | 0, _ => none
  | _ + 1, [] => none
  | n + 1, ch :: s =>
    if isWs ch then parseItems o c n s
    else
      match quotedStringMatch (ch :: s) with
      | some r =>
        match parseItems o c n r with
        | none => none
        | some (items, r2) =>
          some (.cons (Tok.str (String.mk ((ch :: s).take ((ch :: s).length - r.length))))
            items, r2)
      | none =>
        if ch = c then some (.nil, s)
        else if ch = o then
          match parseItems o c n s with
          | none => none
          | some (inner, r1) =>
            match parseItems o c n r1 with
            | none => none
            | some (items, r2) => some (.cons (Tok.grp inner) items, r2)
        else
          match parseItems o c n (contentDrop o c (ch :: s)) with
          | none => none
          | some (items, r2) =>
            some (.cons (Tok.str (String.mk (contentTake o c (ch :: s)))) items, r2)

/-- `pp.nestedExpr(opener := o, closer := c)` at the start of `s`:
requires the opener, then parses the item list up to the matching closer. -/
def parseGroup (o c : Char) (s : Chars) : Option (TokList × Chars) :=
  match s with
  | [] => none
  | ch :: r => if ch = o then parseItems o c (r.length + 1) r else none

/-- `pp.Literal`: the exact characters of `pat` must start `s`. -/
def lit (pat : Chars) (s : Chars) : Option Chars :=
  if pat.isPrefixOf s then some (s.drop pat.length) else none

def keyprojectLit : Chars := [ '\\', 'k', 'e', 'y', 'p', 'r', 'o', 'j', 'e', 'c', 't']
def deliverableLit : Chars := [ '\\', 'd', 'e', 'l', 'i', 'v', 'e', 'r', 'a', 'b', 'l', 'e']
def keytaskLit : Chars := [ '\\', 'k', 'e', 'y', 't', 'a', 's', 'k']
def prereqLit : Chars := [ '\\', 'p', 'r', 'e', 'r', 'e', 'q']

/-- The shared shape of the `keyproject` / `deliverable` / `keytask`
patterns: `Literal + nestedExpr('[',']') + nestedExpr('{','}') +
nestedExpr('{','}')`, with pyparsing skipping whitespace before each
element.  The match list is `[literal, group, group, group]`; the literal
at position 0 is dropped here since no parse action reads it, and the
three captured groups (positions 1, 2, 3 of the match list) are
returned. -/
def matchElement (pat : Chars) (s : Chars) : Option (TokList × TokList × TokList × Chars) :=
  match lit pat s with
  | none => none
  | some r1 =>
    match parseGroup '[' ']' (r1.dropWhile isWs) with
    | none => none
    | some (g1, r2) =>
      match parseGroup '\x7b' '\x7d' (r2.dropWhile isWs) with
      | none => none
      | some (g2, r3) =>
        match parseGroup '\x7b' '\x7d' (r3.dropWhile isWs) with
        | none => none
        | some (g3, r4) => some (g1, g2, g3, r4)

/-- The `prereq` pattern: `Literal + nestedExpr('{','}')`; the match list
is `[literal, group]` and the parse action reads `content[1]`, the
group. -/
def matchPrereq (s : Chars) : Option (TokList × Chars) :=
  match lit prereqLit s with
  | none => none
  | some r1 => parseGroup '\x7b' '\x7d' (r1.dropWhile isWs)

inductive ElemKind where
  | keyproject
  | deliverable
  | keytask
deriving DecidableEq

/-- A successful match of one of the four alternatives of the
`pp.Or` search pattern, with its captured bracket groups. -/
inductive Match where
  | elem : ElemKind → TokList → TokList → TokList → Match
  | prereq : TokList → Match

/-- One attempt of the `pp.Or` of the four patterns at the current
position.  The four command literals are pairwise non-prefix, so at most
one alternative can succeed and trying them in order agrees with
pyparsing's longest-match `Or`.  Returns the match and the text after the
matched span. -/
def tryMatchAt (s : Chars) : Option (Match × Chars) :=
  match matchElement keyprojectLit s with
  | some (g1, g2, g3, r) => some (.elem .keyproject g1 g2 g3, r)
  | none =>
  match matchElement deliverableLit s with
  | some (g1, g2, g3, r) => some (.elem .deliverable g1 g2 g3, r)
  | none =>
  match matchElement keytaskLit s with
  | some (g1, g2, g3, r) => some (.elem .keytask g1 g2 g3, r)
  | none =>
  match matchPrereq s with
  | some (g, r) => some (.prereq g, r)
  | none => none

structure KeyTask where
  code : String
  date : String
  name : String
deriving DecidableEq

structure Deliverable where
  code : String
  date : String
  name : String
  keytasks : List KeyTask
  prereqs : List String
deriving DecidableEq

structure Project where
  code : String
  date : String
  name : String
  deliverables : List Deliverable
deriving DecidableEq

/-- An uncaught Python exception raised inside a parse action; it aborts
the whole `scanString` pass.  The two `IndexError` sites that implement
the structural checks are distinguished by name. -/
inductive ParseError where
  /-- `IndexError` from `self.projects[-1]` on an empty projects list
  (the spec's `NoOpenProject`). -/
  | noOpenProject
  /-- `IndexError` from `current_project['deliverables'][-1]` on an empty
  deliverables list (the spec's `NoOpenDeliverable`). -/
  | noOpenDeliverable
  /-- `IndexError` from `content[i]` or `content[i+1]` in
  `PreReqParser.__call__`. -/
  | indexError
  /-- `TypeError` from `'deliverable:' + req` when `req` is a nested
  match list rather than a string. -/
  | typeError
deriving DecidableEq

instance {ε α : Type} [DecidableEq ε] [DecidableEq α] : DecidableEq (Except ε α) := fun a b =>
  match a, b with
  | .ok x, .ok y =>
    if h : x = y then .isTrue (by rw [h]) else .isFalse (by intro hh; cases hh; exact h rfl)
  | .error x, .error y =>
    if h : x = y then .isTrue (by rw [h]) else .isFalse (by intro hh; cases hh; exact h rfl)
  | .ok _, .error _ => .isFalse (by intro hh; cases hh)
  | .error _, .ok _ => .isFalse (by intro hh; cases hh)

/-- The `info` dict built by `ElementParser.parse`. -/
structure Info where
  code : String
  date : String
  name : String
deriving DecidableEq

/-- `ElementParser.parse`: `code = match_to_string(content[1])`,
`date = match_to_string(content[2])`, `name = match_to_string(content[3])`
(position 0 of the match list is the command literal, which is never
read). -/
def elementParse (g1 g2 g3 : TokList) : Info :=
  { code := match_to_string (Tok.grp g1)
    date := match_to_string (Tok.grp g2)
    name := match_to_string (Tok.grp g3) }

/-- `ProjectParser.__call__`: append a fresh project (with empty
deliverables) to the shared projects list. -/
def projectParserCall (g1 g2 g3 : TokList) (projects : List Project) : List Project :=
  let info := elementParse g1 g2 g3
  projects ++ [{ code := info.code, date := info.date, name := info.name, deliverables := [] }]

/-- `DeliverableParser.__call__`: append a fresh deliverable to
`self.projects[-1]['deliverables']`; `projects[-1]` raises `IndexError`
when no project exists yet. -/
def deliverableParserCall (g1 g2 g3 : TokList) (projects : List Project) :
    Except ParseError (List Project) :=
  let info := elementParse g1 g2 g3
  match projects.getLast? with
  | none => .error .noOpenProject
  | some p =>
    .ok (projects.dropLast ++
      [{ p with deliverables := p.deliverables ++
          [{ code := info.code, date := info.date, name := info.name,
             keytasks := [], prereqs := [] }] }])

/-- `KeyTaskParser.__call__`: append a fresh key task to
`self.projects[-1]['deliverables'][-1]['keytasks']`; either `[-1]` lookup
raises `IndexError` on an empty list. -/
def keyTaskParserCall (g1 g2 g3 : TokList) (projects : List Project) :
    Except ParseError (List Project) :=
  let info := elementParse g1 g2 g3
  match projects.getLast? with
  | none => .error .noOpenProject
  | some p =>
    match p.deliverables.getLast? with
    | none => .error .noOpenDeliverable
    | some d =>
      .ok (projects.dropLast ++
        [{ p with deliverables := p.deliverables.dropLast ++
            [{ d with keytasks := d.keytasks ++
                [{ code := info.code, date := info.date, name := info.name }] }] }])

/-- Python `str.strip(',')` composed with `str.strip()`: commas are removed
from both ends, then whitespace (content tokens never contain whitespace,
so the second strip is vacuous on real tokens but modelled anyway). -/
def pyStrip (s : String) : String :=
  let noComma := ((s.data.dropWhile (· == ',')).reverse.dropWhile (· == ',')).reverse
  String.mk ((noComma.dropWhile isWs).reverse.dropWhile isWs).reverse

/-- `for req in content[i+1]` when `content[i+1]` is a nested match list:
tokens equal to `','` are skipped, any other string token `req` appends
`kind + req`, and a doubly nested group makes `'deliverable:' + req`
raise `TypeError`. -/
def appendRefs (kind : String) : TokList → List String → Except ParseError (List String)
  | .nil, acc => .ok acc
  | .cons (.str s) rest, acc =>
    if s = "," then appendRefs kind rest acc
    else appendRefs kind rest (acc ++ [kind ++ s])
  | .cons (.grp _) _, _ => .error .typeError

/-- `for req in content[i+1]` when `content[i+1]` is a plain string token:
Python iterates its characters; a comma character is skipped, any other
character `ch` appends `kind + ch`. -/
def appendRefChars (kind : String) : List Char → List String → List String
  | [], acc => acc
  | ch :: rest, acc =>
    if ch = ',' then appendRefChars kind rest acc
    else appendRefChars kind rest (acc ++ [kind ++ String.mk [ch]])

/-- The `while True` loop of `PreReqParser.__call__` over the items of the
prereq bracket group, starting at index `i` with the current prereqs
`acc`.  A `\deliverableref` or `\keyprojectref` token (after stripping
commas and whitespace from its ends) consumes the following item as its
reference list and advances by two, anything else advances by one; the
loop exits as soon as the new index reaches `len(content)`.  `content[i]`
out of range would raise `IndexError`; the loop structure guarantees the
index is in range whenever the fuel (`content.length` at the start) has
not run out, so the fuel-exhaustion branch is unreachable. -/
def preReqLoop (content : TokList) : Nat → Nat → List String → Except ParseError (List String)
  | 0, _, acc => .ok acc
  | fuel + 1, i, acc =>
    match content.get? i with
    | none => .error .indexError
    | some t =>
      let step : Except ParseError (List String × Nat) :=
        match t with
        | .str s =>
          if pyStrip s = "\\deliverableref" then
            match content.get? (i + 1) with
            | none => .error .indexError
            | some (.grp g) =>
              match appendRefs "deliverable:" g acc with
              | .error e => .error e
              | .ok acc2 => .ok (acc2, i + 2)
            | some (.str s2) => .ok (appendRefChars "deliverable:" s2.data acc, i + 2)
          else if pyStrip s = "\\keyprojectref" then
            match content.get? (i + 1) with
            | none => .error .indexError
            | some (.grp g) =>
              match appendRefs "keyproject:" g acc with
              | .error e => .error e
              | .ok acc2 => .ok (acc2, i + 2)
            | some (.str s2) => .ok (appendRefChars "keyproject:" s2.data acc, i + 2)
          else .ok (acc, i + 1)
        | .grp _ => .ok (acc, i + 1)
      match step with
      | .error e => .error e
      | .ok (acc2, i2) =>
        if content.length ≤ i2 then .ok acc2 else preReqLoop content fuel i2 acc2

/-- `PreReqParser.__call__`: `content[1]` is the bracket group of the
prereq command.  An empty group returns before anything else happens;
otherwise the open deliverable is looked up exactly as in
`KeyTaskParser` and its prereqs list is replaced by the result of the
reference loop. -/
def preReqParserCall (content : TokList) (projects : List Project) :
    Except ParseError (List Project) :=
  if content.isEmpty then .ok projects
  else
    match projects.getLast? with
    | none => .error .noOpenProject
    | some p =>
      match p.deliverables.getLast? with
      | none => .error .noOpenDeliverable
      | some d =>
        match preReqLoop content content.length 0 d.prereqs with
        | .error e => .error e
        | .ok reqs =>
          .ok (projects.dropLast ++
            [{ p with deliverables := p.deliverables.dropLast ++
                [{ d with prereqs := reqs }] }])

/-- Dispatch of a successful match to its parse action. -/
def applyMatch : Match → List Project → Except ParseError (List Project)
  | .elem .keyproject g1 g2 g3, projects => .ok (projectParserCall g1 g2 g3 projects)
  | .elem .deliverable g1 g2 g3, projects => deliverableParserCall g1 g2 g3 projects
  | .elem .keytask g1 g2 g3, projects => keyTaskParserCall g1 g2 g3 projects
  | .prereq g, projects => preReqParserCall g projects

/-- `search_pattern.scanString(text)` together with the parse actions:
at each position try the four patterns; on a match run its action (an
exception aborts the whole pass) and continue after the matched span, on
no match advance one character.  Every step consumes at least one
character, so fuel `length + 1` is never exhausted. -/
def scanAux : Nat → Chars → List Project → Except ParseError (List Project)
  | 0, _, projects => .ok projects
  | n + 1, s, projects =>
    match s with
    | [] => .ok projects
    | _ :: tl =>
      match tryMatchAt s with
      | some (m, rest) =>
        match applyMatch m projects with
        | .error e => .error e
        | .ok ps2 => scanAux n rest ps2
      | none => scanAux n tl projects

/-- The sequence of matches the scan recognises, in document order
(recognition does not depend on the projects list). -/
def matchList : Nat → Chars → List Match
  | 0, _ => []
  | n + 1, s =>
    match s with
    | [] => []
    | _ :: tl =>
      match tryMatchAt s with
      | some (m, rest) => m :: matchList n rest
      | none => matchList n tl

/-- Folding the parse actions over a match sequence, stopping at the first
exception. -/
def runMatches : List Match → List Project → Except ParseError (List Project)
  | [], projects => .ok projects
  | m :: ms, projects =>
    match applyMatch m projects with
    | .error e => .error e
    | .ok ps2 => runMatches ms ps2

/-- `parse_projects(text)`: start from a fresh empty projects list and scan
the whole text once. -/
def parse_projects (text : String) : Except ParseError (List Project) :=
  scanAux (text.data.length + 1) text.data []

/-- Two invocations of `parse_projects` on the same text.  Each call of the
Python function builds a fresh `projects` list and fresh parser objects
closing over it, so the calls share no state; the embedding accordingly
runs the same pure function twice. -/
def parse_twice (text : String) : Except ParseError (List Project) × Except ParseError (List Project) :=
  (parse_projects text, parse_projects text)

/-- Is a match a `keyproject` command match? -/
def isKeyprojectMatch : Match → Bool
  | .elem .keyproject _ _ _ => true
  | _ => false

/-- Is a match a `deliverable` command match? -/
def isDeliverableMatch : Match → Bool
  | .elem .deliverable _ _ _ => true
  | _ => false

/-- The whitespace-separated words of a character list: maximal runs of
non-whitespace characters, in order, with all whitespace dropped. -/
def splitWs : Chars → List Chars
  | [] => []
  | ch :: s =>
    if isWs ch then splitWs s
    else (ch :: s.takeWhile (fun x => !isWs x)) :: splitWs (s.dropWhile (fun x => !isWs x))
termination_by s => s.length
decreasing_by
· simp only [List.length_cons]; omega
· simp only [List.length_cons]
  exact Nat.lt_succ_of_le ((List.dropWhile_sublist _).length_le)

/-- The item list a bracket-free group content tokenises to: one plain
string token per whitespace-separated word. -/
def wsTokens (cs : Chars) : TokList :=
  TokList.ofList ((splitWs cs).map (fun w => Tok.str (String.mk w)))

/-- The end-to-end input of the spec's final testable property, verbatim:
its commands carry two square-bracket groups, `[][P1]` etc. -/
def c1BadText : String :=
  "\\keyproject[][P1]\x7b2020\x7d\x7bProj One\x7d\n\\deliverable[][D1]\x7b2021\x7d\x7bDeliv One\x7d\n\\keytask[][T1]\x7b2021\x7d\x7bTask One\x7d\n\\prereq\x7b\\deliverableref\x7bD0\x7d\x7d"

/-- The end-to-end input in the shape the code actually recognises: one
square-bracket group (the code) and two brace groups (date, name). -/
def c1GoodText : String :=
  "\\keyproject[P1]\x7b2020\x7d\x7bProj One\x7d\n\\deliverable[D1]\x7b2021\x7d\x7bDeliv One\x7d\n\\keytask[T1]\x7b2021\x7d\x7bTask One\x7d\n\\prereq\x7b\\deliverableref\x7bD0\x7d\x7d"

/-- A `keytask` command with the two-square-bracket-group shape the spec
describes. -/
def c2BadText : String := "\\keytask[][a]\x7bb\x7d\x7bc\x7d"

/-- A `keytask` command with the one-square-bracket-group shape of the
source patterns. -/
def c2GoodText : String := "\\keytask[a]\x7bb\x7d\x7bc\x7d"

/-- An open project and deliverable followed by the spec's prereq example
`\prereq{\deliverableref{A,B} \keyprojectref{C}}`. -/
def c3Text : String :=
  "\\keyproject[p]\x7bd\x7d\x7bn\x7d\\deliverable[e]\x7bdd\x7d\x7bdn\x7d\\prereq\x7b\\deliverableref\x7bA,B\x7d \\keyprojectref\x7bC\x7d\x7d"

/-- Two `keyproject` commands followed by one `deliverable` command. -/
def c5Text : String :=
  "\\keyproject[A]\x7bd1\x7d\x7bn1\x7d\\keyproject[B]\x7bd2\x7d\x7bn2\x7d\\deliverable[D]\x7bd3\x7d\x7bn3\x7d"

/-- The suffix of `c6Text` starting at the malformed `keytask` token: its
second brace group never closes before the end of the input. -/
def c6BadSuffix : String := "\\keytask[x]\x7bbad\x7b \\keytask[x]\x7bc\x7d\x7bn\x7d"

/-- An open project and deliverable, then an unterminated `keytask`
command, then a valid one. -/
def c6Text : String :=
  "\\keyproject[p]\x7bpd\x7d\x7bpn\x7d \\deliverable[e]\x7bed\x7d\x7ben\x7d \\keytask[x]\x7bbad\x7b \\keytask[x]\x7bc\x7d\x7bn\x7d"

/-- A small text on which parsing succeeds. -/
def c7Text : String := "\\keyproject[K]\x7bkd\x7d\x7bkn\x7d"

/-- A prereq command with an empty bracket group and nothing else. -/
def c8Text : String := "\\prereq\x7b\x7d"

/-- An open project and deliverable, a keytask whose name group contains a
doubled space, and a keytask whose name group has leading/trailing blanks
and a nested brace group. -/
def c9Text : String :=
  "\\keyproject[p]\x7bd\x7d\x7bn\x7d\\deliverable[e]\x7bd\x7d\x7bn\x7d\\keytask[x]\x7bdt\x7d\x7bProj  One\x7d\\keytask[y]\x7bdt\x7d\x7b A \x7bB  C\x7d D \x7d"

/-- The flat group content used to instantiate the normalisation theorem. -/
def c9Word : Chars := ( "Proj  One").data

/-- An open project and deliverable, then a keytask whose name group holds
a plain word and a double-quoted string with a doubled internal space. -/
def c9QuoteText : String :=
  "\\keyproject[p]\x7bd\x7d\x7bn\x7d\\deliverable[e]\x7bd\x7d\x7bn\x7d\\keytask[x]\x7bdt\x7d\x7bA \"b  c\"\x7d"

/-- Appending a deliverable built from groups `g1 g2 g3` always targets the
last project of the list. -/
theorem deliverableParserCall_concat (g1 g2 g3 : TokList) (qs : List Project) (P : Project) :
    deliverableParserCall g1 g2 g3 (qs ++ [P]) =
      .ok (qs ++ [{ P with deliverables := P.deliverables ++
        [{ code := (elementParse g1 g2 g3).code, date := (elementParse g1 g2 g3).date,
           name := (elementParse g1 g2 g3).name, keytasks := [], prereqs := [] }] }]) := by
  simp [deliverableParserCall, List.getLast?_concat, List.dropLast_concat]

/-- Appending a keytask built from groups `g1 g2 g3` always targets the
last deliverable of the last project. -/
theorem keyTaskParserCall_concat (g1 g2 g3 : TokList) (qs : List Project)
    (pc pd pn : String) (ds : List Deliverable) (D : Deliverable) :
    keyTaskParserCall g1 g2 g3
        (qs ++ [{ code := pc, date := pd, name := pn, deliverables := ds ++ [D] }]) =
      .ok (qs ++ [{ code := pc, date := pd, name := pn, deliverables := ds ++
        [{ D with keytasks := D.keytasks ++
          [{ code := (elementParse g1 g2 g3).code, date := (elementParse g1 g2 g3).date,
             name := (elementParse g1 g2 g3).name }] }] }]) := by
  simp [keyTaskParserCall, List.getLast?_concat, List.dropLast_concat]

/-- C1 (counterexample).  On the spec's verbatim end-to-end input the
commands carry `[..][..]{..}{..}` argument groups; none of the three
element patterns (which require `[..]{..}{..}`) matches, the `\prereq`
command does match, and its action hits `projects[-1]` on the still empty
projects list: the parse aborts with the no-open-project `IndexError`
instead of producing the claimed one-project tree. -/
theorem c1_counterexample :
    parse_projects c1BadText = .error .noOpenProject ∧
    parse_projects c1BadText ≠
      .ok [⟨ "P1", "2020", "Proj One",
        [⟨ "D1", "2021", "Deliv One", [⟨ "T1", "2021", "Task One"⟩], [ "deliverable:D0"]⟩]⟩] :=
  ⟨rfl, by decide⟩

/-- C1 (amended).  With each command written in the shape the source
patterns actually require — `\keyproject[P1]{2020}{Proj One}` etc., one
square-bracket group holding the code — the end-to-end scenario yields
exactly one project P1 containing exactly one deliverable D1 with the
single prereq reference recorded as the string `deliverable:D0`,
containing exactly one keytask T1. -/
theorem c1_end_to_end :
    parse_projects c1GoodText =
      .ok [⟨ "P1", "2020", "Proj One",
        [⟨ "D1", "2021", "Deliv One", [⟨ "T1", "2021", "Task One"⟩], [ "deliverable:D0"]⟩]⟩] :=
  rfl

/-- C2 (counterexample).  A `keytask` token followed by
`[group][group]{group}{group}` is not recognised at all, while a `keytask`
token followed by `[group]{group}{group}` is recognised, with the single
square-bracket group captured as the code group, the first brace group as
the date and the second as the name — refuting the claimed
two-square-bracket shape and its capture positions. -/
theorem c2_counterexample :
    tryMatchAt c2BadText.data = none ∧
    tryMatchAt c2GoodText.data =
      some (.elem .keytask (.cons (.str "a") .nil) (.cons (.str "b") .nil)
        (.cons (.str "c") .nil), []) :=
  ⟨rfl, rfl⟩

/-- C2 (amended).  An element command is recognised exactly when its
literal token is followed (after optional whitespace) by one
square-bracket group and two brace groups in sequence; in the resulting
match list position 0 is the literal itself and the captured groups are
position 1 (code), position 2 (date) and position 3 (name), as read by
`ElementParser.parse`. -/
theorem c2_recognizer :
    (∀ (pat s : Chars) (g1 g2 g3 : TokList) (r : Chars),
      matchElement pat s = some (g1, g2, g3, r) ↔
        ∃ r1 r2 r3, lit pat s = some r1 ∧
          parseGroup '[' ']' (r1.dropWhile isWs) = some (g1, r2) ∧
          parseGroup '\x7b' '\x7d' (r2.dropWhile isWs) = some (g2, r3) ∧
          parseGroup '\x7b' '\x7d' (r3.dropWhile isWs) = some (g3, r))
    ∧ (∀ g1 g2 g3, elementParse g1 g2 g3 =
        { code := match_to_string (.grp g1), date := match_to_string (.grp g2),
          name := match_to_string (.grp g3) }) := by
  constructor
  · intro pat s g1 g2 g3 r
    constructor
    · intro h
      unfold matchElement at h
      cases hl : lit pat s with
      | none => simp [hl] at h
      | some r1 =>
        simp only [hl] at h
        cases hg1 : parseGroup '[' ']' (r1.dropWhile isWs) with
        | none => simp [hg1] at h
        | some p1 =>
          obtain ⟨a1, r2⟩ := p1
          simp only [hg1] at h
          cases hg2 : parseGroup '\x7b' '\x7d' (r2.dropWhile isWs) with
          | none => simp [hg2] at h
          | some p2 =>
            obtain ⟨a2, r3⟩ := p2
            simp only [hg2] at h
            cases hg3 : parseGroup '\x7b' '\x7d' (r3.dropWhile isWs) with
            | none => simp [hg3] at h
            | some p3 =>
              obtain ⟨a3, r4⟩ := p3
              simp only [hg3, Option.some.injEq, Prod.mk.injEq] at h
              obtain ⟨h1, h2, h3, h4⟩ := h
              subst h1; subst h2; subst h3; subst h4
              exact ⟨r1, r2, r3, rfl, hg1, hg2, hg3⟩
    · rintro ⟨r1, r2, r3, h1, h2, h3, h4⟩
      simp [matchElement, h1, h2, h3, h4]
  · intro g1 g2 g3
    rfl

/-- C3 (counterexample).  On the spec's prereq example the code does not
split the comma-joined identifier token: the open deliverable ends with
prereqs `["deliverable:A,B", "keyproject:C"]`, not the claimed three
comma-split references. -/
theorem c3_counterexample :
    parse_projects c3Text ≠
      .ok [⟨ "p", "d", "n",
        [⟨ "e", "dd", "dn", [],
          [ "deliverable:A", "deliverable:B", "keyproject:C"]⟩]⟩] := by
  decide

/-- C3 (amended).  The prereq bracket content is tokenised into
whitespace-separated items; a `\deliverableref` / `\keyprojectref` item
consumes the following bracket group, and inside that group only items
that are exactly a comma are discarded — commas embedded in an identifier
token are kept.  So `\prereq{\deliverableref{A,B} \keyprojectref{C}}`
under an open deliverable appends exactly the two references
`deliverable:A,B` and `keyproject:C`, in that order. -/
theorem c3_prereq_parsing :
    parse_projects c3Text =
      .ok [⟨ "p", "d", "n",
        [⟨ "e", "dd", "dn", [], [ "deliverable:A,B", "keyproject:C"]⟩]⟩] :=
  rfl

/-- C6.  The unterminated `\keytask[x]{bad{` token is no match at all
(first conjunct), and scanning the whole text still recognises the open
project, the open deliverable and the later valid keytask, yielding
exactly the entities of the valid matches. -/
theorem c6_unbalanced_tolerance :
    tryMatchAt c6BadSuffix.data = none ∧
    parse_projects c6Text =
      .ok [⟨ "p", "pd", "pn", [⟨ "e", "ed", "en", [⟨ "x", "c", "n"⟩], []⟩]⟩] :=
  ⟨rfl, rfl⟩

/-- C7.  Parsing is a pure function of the text: whenever a parse
succeeds, running the parser twice on the same text (each run starting
from its own fresh empty projects list, as `parse_projects` does) gives
the same tree both times. -/
theorem c7_deterministic (text : String) (r : List Project)
    (h : parse_projects text = .ok r) : parse_twice text = (.ok r, .ok r) := by
  simp [parse_twice, h]

/-- Witness for C7 at a concrete text. -/
theorem c7_deterministic_witness :
    parse_twice c7Text = (.ok [⟨ "K", "kd", "kn", []⟩], .ok [⟨ "K", "kd", "kn", []⟩]) :=
  c7_deterministic c7Text [⟨ "K", "kd", "kn", []⟩] rfl

/-- C8.  A `\prereq{}` whose group is empty returns before the
`projects[-1]` lookup, for any state of the projects list — including the
empty one — and a document consisting only of `\prereq{}` parses to the
empty project list with no error. -/
theorem c8_empty_prereq :
    (∀ ps : List Project, preReqParserCall .nil ps = .ok ps)
    ∧ parse_projects c8Text = .ok [] :=
  ⟨fun _ => rfl, rfl⟩

/-- The scan is the fold of the parse actions over the recognised match
sequence: recognition does not consult the projects list. -/
theorem scanAux_eq_runMatches (n : Nat) :
    ∀ (s : Chars) (ps : List Project), scanAux n s ps = runMatches (matchList n s) ps := by
  induction n with
  | zero => intro s ps; rfl
  | succ n ih =>
    intro s ps
    cases s with
    | nil => rfl
    | cons ch tl =>
      simp only [scanAux, matchList]
      cases tryMatchAt (ch :: tl) with
      | none => exact ih tl ps
      | some mr =>
        obtain ⟨m, rest⟩ := mr
        simp only [runMatches]
        cases applyMatch m ps with
        | error e => rfl
        | ok ps2 => exact ih rest ps2

/-- With no open project, every match other than a `keyproject` and an
empty `prereq` aborts with the `projects[-1]` lookup; in particular a
match sequence holding a `deliverable` match with no `keyproject` before
it runs to the no-open-project error. -/
theorem runMatches_deliverable_orphan :
    ∀ (ms1 : List Match) (g1 g2 g3 : TokList) (ms2 : List Match),
      (∀ m ∈ ms1, isKeyprojectMatch m = false) →
      runMatches (ms1 ++ Match.elem .deliverable g1 g2 g3 :: ms2) [] =
        .error .noOpenProject := by
  intro ms1
  induction ms1 with
  | nil =>
    intro g1 g2 g3 ms2 _
    simp [runMatches, applyMatch, deliverableParserCall]
  | cons m ms ih =>
    intro g1 g2 g3 ms2 h
    have hm := h m (by simp)
    have hrest : ∀ x ∈ ms, isKeyprojectMatch x = false := fun x hx => h x (by simp [hx])
    cases m with
    | elem k a b c =>
      cases k with
      | keyproject => simp [isKeyprojectMatch] at hm
      | deliverable => simp [runMatches, applyMatch, deliverableParserCall]
      | keytask => simp [runMatches, applyMatch, keyTaskParserCall]
    | prereq g =>
      cases g with
      | nil =>
        simpa [runMatches, applyMatch, preReqParserCall, TokList.isEmpty] using
          ih g1 g2 g3 ms2 hrest
      | cons t ts => simp [runMatches, applyMatch, preReqParserCall, TokList.isEmpty]

/-- With the open (last) project holding no deliverable, every match other
than a `keyproject`, a `deliverable` and an empty `prereq` aborts with the
`deliverables[-1]` lookup; in particular a match sequence holding a
`keytask` match, with no `keyproject` and no `deliverable` before it, run
from such a state ends in the no-open-deliverable error. -/
theorem runMatches_keytask_orphan :
    ∀ (ms2 : List Match) (g1 g2 g3 : TokList) (ms3 : List Match)
      (qs : List Project) (pc pd pn : String),
      (∀ m ∈ ms2, isKeyprojectMatch m = false ∧ isDeliverableMatch m = false) →
      runMatches (ms2 ++ Match.elem .keytask g1 g2 g3 :: ms3) (qs ++ [⟨pc, pd, pn, []⟩]) =
        .error .noOpenDeliverable := by
  intro ms2
  induction ms2 with
  | nil =>
    intro g1 g2 g3 ms3 qs pc pd pn _
    simp [runMatches, applyMatch, keyTaskParserCall, List.getLast?_concat]
  | cons m ms ih =>
    intro g1 g2 g3 ms3 qs pc pd pn h
    have hm := h m (by simp)
    have hrest : ∀ x ∈ ms, isKeyprojectMatch x = false ∧ isDeliverableMatch x = false :=
      fun x hx => h x (by simp [hx])
    cases m with
    | elem k a b c =>
      cases k with
      | keyproject => simp [isKeyprojectMatch] at hm
      | deliverable => simp [isDeliverableMatch] at hm
      | keytask =>
        simp [runMatches, applyMatch, keyTaskParserCall, List.getLast?_concat]
    | prereq g =>
      cases g with
      | nil =>
        simpa [runMatches, applyMatch, preReqParserCall, TokList.isEmpty] using
          ih g1 g2 g3 ms3 qs pc pd pn hrest
      | cons t ts =>
        simp [runMatches, applyMatch, preReqParserCall, TokList.isEmpty,
          List.getLast?_concat]

/-- C4.  The parse of a document is the fold of the parse actions over its
recognised match sequence (third conjunct); a `deliverable` match with no
`keyproject` match before it makes that fold abort with the
no-open-project error (first conjunct), and a `keytask` match reached
while the open project has no deliverable — no `deliverable` (or further
`keyproject`) match since the project opened — makes it abort with the
no-open-deliverable error (second conjunct).  In all cases the result is
an error, not a partial tree. -/
theorem c4_orphan_detection :
    (∀ (ms1 : List Match) (g1 g2 g3 : TokList) (ms2 : List Match),
      (∀ m ∈ ms1, isKeyprojectMatch m = false) →
      runMatches (ms1 ++ Match.elem .deliverable g1 g2 g3 :: ms2) [] =
        .error .noOpenProject)
    ∧ (∀ (ms2 : List Match) (g1 g2 g3 : TokList) (ms3 : List Match)
        (qs : List Project) (pc pd pn : String),
      (∀ m ∈ ms2, isKeyprojectMatch m = false ∧ isDeliverableMatch m = false) →
      runMatches (ms2 ++ Match.elem .keytask g1 g2 g3 :: ms3) (qs ++ [⟨pc, pd, pn, []⟩]) =
        .error .noOpenDeliverable)
    ∧ (∀ (n : Nat) (s : Chars) (ps : List Project),
        scanAux n s ps = runMatches (matchList n s) ps) :=
  ⟨runMatches_deliverable_orphan, runMatches_keytask_orphan,
    fun n => scanAux_eq_runMatches n⟩

/-- Witness for C4: a deliverable preceded only by an empty prereq errors
with no open project, and a keytask with a freshly opened project errors
with no open deliverable. -/
theorem c4_orphan_detection_witness :
    runMatches [Match.prereq .nil, Match.elem .deliverable .nil .nil .nil] [] =
      .error .noOpenProject ∧
    runMatches [Match.elem .keytask .nil .nil .nil] [⟨ "P", "d", "n", []⟩] =
      .error .noOpenDeliverable :=
  ⟨c4_orphan_detection.1 [Match.prereq .nil] .nil .nil .nil []
      (by intro m hm; simp at hm; subst hm; rfl),
    c4_orphan_detection.2.1 [] .nil .nil .nil [] [] "P" "d" "n" (by simp)⟩

/-- C5.  A recognised deliverable is appended as the last child of the
last project in the list (first conjunct); a recognised keytask is
appended as the last child of the last deliverable of the last project
(second conjunct); concretely, after two `keyproject` commands a
`deliverable` command attaches to the second project (third conjunct). -/
theorem c5_attachment :
    (∀ (g1 g2 g3 : TokList) (qs : List Project) (P : Project),
      deliverableParserCall g1 g2 g3 (qs ++ [P]) =
        .ok (qs ++ [{ P with deliverables := P.deliverables ++
          [{ code := (elementParse g1 g2 g3).code, date := (elementParse g1 g2 g3).date,
             name := (elementParse g1 g2 g3).name, keytasks := [], prereqs := [] }] }]))
    ∧ (∀ (g1 g2 g3 : TokList) (qs : List Project) (pc pd pn : String)
        (ds : List Deliverable) (D : Deliverable),
      keyTaskParserCall g1 g2 g3
          (qs ++ [{ code := pc, date := pd, name := pn, deliverables := ds ++ [D] }]) =
        .ok (qs ++ [{ code := pc, date := pd, name := pn, deliverables := ds ++
          [{ D with keytasks := D.keytasks ++
            [{ code := (elementParse g1 g2 g3).code, date := (elementParse g1 g2 g3).date,
               name := (elementParse g1 g2 g3).name }] }] }]))
    ∧ parse_projects c5Text =
        .ok [⟨ "A", "d1", "n1", []⟩, ⟨ "B", "d2", "n2", [⟨ "D", "d3", "n3", [], []⟩]⟩] :=
  ⟨deliverableParserCall_concat, keyTaskParserCall_concat, rfl⟩

/-- C10.  Recognising a keytask appends exactly one keytask (whose fields
come from the captured groups) to the keytasks of the last deliverable of
the last project, and changes nothing else: the other projects, the
project's own fields, the earlier deliverables, and the last
deliverable's code, date, name and prereqs all reappear unchanged. -/
theorem c10_keytask_frame :
    ∀ (g1 g2 g3 : TokList) (qs : List Project) (pc pd pn dc dd dn : String)
      (ds : List Deliverable) (ks : List KeyTask) (rs : List String),
      keyTaskParserCall g1 g2 g3 (qs ++ [⟨pc, pd, pn, ds ++ [⟨dc, dd, dn, ks, rs⟩]⟩]) =
        .ok (qs ++ [⟨pc, pd, pn, ds ++ [⟨dc, dd, dn,
          ks ++ [⟨match_to_string (.grp g1), match_to_string (.grp g2),
            match_to_string (.grp g3)⟩], rs⟩]⟩]) := by
  intro g1 g2 g3 qs pc pd pn dc dd dn ds ks rs
  exact keyTaskParserCall_concat g1 g2 g3 qs pc pd pn ds ⟨dc, dd, dn, ks, rs⟩

/-- A quoted string can only start at a quote character. -/
theorem quotedStringMatch_non_quote (ch : Char) (s : Chars)
    (h1 : ch ≠ dquote) (h2 : ch ≠ squote) : quotedStringMatch (ch :: s) = none := by
  simp [quotedStringMatch, h1, h2]

/-- On delimiter-free, quote-free content followed by the closing
delimiter, a content token is a maximal non-whitespace run. -/
theorem contentTake_flat (o c : Char) :
    ∀ (cs rest : Chars), (∀ x ∈ cs, x ≠ o ∧ x ≠ c ∧ x ≠ dquote ∧ x ≠ squote) →
      contentTake o c (cs ++ c :: rest) = cs.takeWhile (fun x => !isWs x) := by
  intro cs rest
  induction cs with
  | nil => intro _; simp [contentTake, tokChar]
  | cons x cs ih =>
    intro h
    have hx := h x (by simp)
    have hrest : ∀ y ∈ cs, y ≠ o ∧ y ≠ c ∧ y ≠ dquote ∧ y ≠ squote :=
      fun y hy => h y (by simp [hy])
    have h1 : (x != o) = true := by simpa using hx.1
    have h2 : (x != c) = true := by simpa using hx.2.1
    have hqs : quotedStringMatch (x :: (cs ++ c :: rest)) = none :=
      quotedStringMatch_non_quote x _ hx.2.2.1 hx.2.2.2
    have hp : tokChar o c x = !isWs x := by simp [tokChar, h1, h2]
    cases hw : isWs x with
    | true => simp [contentTake, hp, hw, hqs]
    | false => simp [contentTake, hp, hw, hqs, ih hrest]

/-- On delimiter-free, quote-free content followed by the closing
delimiter, the rest after a content token starts at the first whitespace
or at the closer. -/
theorem contentDrop_flat (o c : Char) :
    ∀ (cs rest : Chars), (∀ x ∈ cs, x ≠ o ∧ x ≠ c ∧ x ≠ dquote ∧ x ≠ squote) →
      contentDrop o c (cs ++ c :: rest) =
        cs.dropWhile (fun x => !isWs x) ++ c :: rest := by
  intro cs rest
  induction cs with
  | nil => intro _; simp [contentDrop, tokChar]
  | cons x cs ih =>
    intro h
    have hx := h x (by simp)
    have hrest : ∀ y ∈ cs, y ≠ o ∧ y ≠ c ∧ y ≠ dquote ∧ y ≠ squote :=
      fun y hy => h y (by simp [hy])
    have h1 : (x != o) = true := by simpa using hx.1
    have h2 : (x != c) = true := by simpa using hx.2.1
    have hqs : quotedStringMatch (x :: (cs ++ c :: rest)) = none :=
      quotedStringMatch_non_quote x _ hx.2.2.1 hx.2.2.2
    have hp : tokChar o c x = !isWs x := by simp [tokChar, h1, h2]
    cases hw : isWs x with
    | true => simp [contentDrop, hp, hw, hqs]
    | false => simp [contentDrop, hp, hw, hqs, ih hrest]

/-- A bracket group whose content contains no delimiter and no quote
character tokenises to the whitespace-separated words of the content, one
plain string token each. -/
theorem parseItems_flat (o c : Char) (hc : isWs c = false)
    (hcd : c ≠ dquote) (hcs : c ≠ squote) :
    ∀ (n : Nat) (cs rest : Chars), cs.length < n →
      (∀ x ∈ cs, x ≠ o ∧ x ≠ c ∧ x ≠ dquote ∧ x ≠ squote) →
      parseItems o c n (cs ++ c :: rest) = some (wsTokens cs, rest) := by
  intro n
  induction n with
  | zero => intro cs rest h _; omega
  | succ n ih =>
    intro cs rest hlen hflat
    cases cs with
    | nil =>
      have hqs : quotedStringMatch (c :: rest) = none :=
        quotedStringMatch_non_quote c rest hcd hcs
      simp [parseItems, hc, hqs, wsTokens, splitWs, TokList.ofList]
    | cons ch cs =>
      have hch := hflat ch (by simp)
      have hrest : ∀ x ∈ cs, x ≠ o ∧ x ≠ c ∧ x ≠ dquote ∧ x ≠ squote :=
        fun x hx => hflat x (by simp [hx])
      have hlen' : cs.length < n := by
        simp only [List.length_cons] at hlen; omega
      rw [List.cons_append]
      have hqs : quotedStringMatch (ch :: (cs ++ c :: rest)) = none :=
        quotedStringMatch_non_quote ch _ hch.2.2.1 hch.2.2.2
      cases hw : isWs ch with
      | true =>
        have hrec := ih cs rest hlen' hrest
        simp only [parseItems, hw, if_true]
        rw [hrec]
        simp [wsTokens, splitWs, hw]
      | false =>
        have htw : contentTake o c (ch :: (cs ++ c :: rest)) =
            ch :: cs.takeWhile (fun x => !isWs x) := by
          have h := contentTake_flat o c (ch :: cs) rest hflat
          rw [List.cons_append] at h
          rw [h, List.takeWhile_cons_of_pos (by simp [hw])]
        have hdw : contentDrop o c (ch :: (cs ++ c :: rest)) =
            cs.dropWhile (fun x => !isWs x) ++ c :: rest := by
          have h := contentDrop_flat o c (ch :: cs) rest hflat
          rw [List.cons_append] at h
          rw [h, List.dropWhile_cons_of_pos (by simp [hw])]
        have hdlen : (cs.dropWhile (fun x => !isWs x)).length < n :=
          lt_of_le_of_lt ((List.dropWhile_sublist _).length_le) hlen'
        have hdflat : ∀ x ∈ cs.dropWhile (fun x => !isWs x),
            x ≠ o ∧ x ≠ c ∧ x ≠ dquote ∧ x ≠ squote :=
          fun x hx => hrest x ((List.dropWhile_sublist _).subset hx)
        have hrec := ih (cs.dropWhile (fun x => !isWs x)) rest hdlen hdflat
        simp only [parseItems, hw, hqs, hch.1, hch.2.1, if_false]
        rw [hdw, hrec, htw]
        simp [wsTokens, splitWs, hw, TokList.ofList]

/-- Rendering a converted token list renders each token in order. -/
theorem mtsList_ofList : ∀ l : List Tok, mtsList (TokList.ofList l) = l.map match_to_string := by
  intro l
  induction l with
  | nil => rfl
  | cons t ts ih => simp [TokList.ofList, mtsList, ih]

/-- C9 (counterexample).  A quoted string inside a bracket group is one
verbatim token: the keytask name group with content `A "b  c"` is
captured as `A "b  c"` — the doubled space inside the quotes survives —
refuting the claim that any run of whitespace inside a group becomes
exactly one space (whitespace-splitting the content would have given
`A "b c"`). -/
theorem c9_counterexample :
    parse_projects c9QuoteText =
      .ok [⟨ "p", "d", "n", [⟨ "e", "d", "n",
        [⟨ "x", "dt", "A \"b  c\""⟩], []⟩]⟩] ∧
    parse_projects c9QuoteText ≠
      .ok [⟨ "p", "d", "n", [⟨ "e", "d", "n",
        [⟨ "x", "dt", "A \"b c\""⟩], []⟩]⟩] :=
  ⟨rfl, by decide⟩

/-- C9 (amended).  On quote-free content the captured fields are
whitespace-normalized: the content of a bracket-free, quote-free group is
tokenised into its whitespace-separated words (first conjunct) and the
captured string is those words rejoined with single spaces (second
conjunct) — runs of spaces, newlines and tabs collapse to one space and
leading/trailing whitespace is dropped.  Concretely, a keytask name
written `Proj  One` is captured as `Proj One` and a name with
leading/trailing blanks and a nested brace group is flattened to
`A B C D` (third conjunct); a complete quoted string, however, is kept as
one verbatim token whose internal whitespace survives: the name group
with content `A "b  c"` is captured as `A "b  c"` (fourth conjunct). -/
theorem c9_ws_normalization :
    (∀ (cs rest : Chars),
      (∀ x ∈ cs, x ≠ '\x7b' ∧ x ≠ '\x7d' ∧ x ≠ dquote ∧ x ≠ squote) →
      parseGroup '\x7b' '\x7d' ('\x7b' :: (cs ++ '\x7d' :: rest)) = some (wsTokens cs, rest))
    ∧ (∀ cs : Chars, match_to_string (.grp (wsTokens cs)) =
        String.intercalate " " ((splitWs cs).map String.mk))
    ∧ parse_projects c9Text =
        .ok [⟨ "p", "d", "n", [⟨ "e", "d", "n",
          [⟨ "x", "dt", "Proj One"⟩, ⟨ "y", "dt", "A B C D"⟩], []⟩]⟩]
    ∧ parse_projects c9QuoteText =
        .ok [⟨ "p", "d", "n", [⟨ "e", "d", "n",
          [⟨ "x", "dt", "A \"b  c\""⟩], []⟩]⟩] := by
  refine ⟨?_, ?_, rfl, rfl⟩
  · intro cs rest hflat
    have hlen : cs.length < (cs ++ '\x7d' :: rest).length + 1 := by
      simp [List.length_append]; omega
    simpa [parseGroup] using
      parseItems_flat '\x7b' '\x7d' (by rfl) (by decide) (by decide)
        ((cs ++ '\x7d' :: rest).length + 1) cs rest hlen hflat
  · intro cs
    have hcomp : (match_to_string ∘ fun w => Tok.str (String.mk w)) =
        fun w : Chars => String.mk w := by
      funext w; rfl
    simp [match_to_string, wsTokens, mtsList_ofList, List.map_map, hcomp]

/-- Witness for C9 at the concrete content `Proj  One`. -/
theorem c9_ws_normalization_witness :
    (∀ x ∈ c9Word, x ≠ '\x7b' ∧ x ≠ '\x7d' ∧ x ≠ dquote ∧ x ≠ squote) ∧
    parseGroup '\x7b' '\x7d' ('\x7b' :: (c9Word ++ '\x7d' :: [])) =
      some (wsTokens c9Word, []) :=
  ⟨by decide, c9_ws_normalization.1 c9Word [] (by decide)⟩

end SRM
